import Mathlib

/-!
Shallow embedding of the procedural image generator in `src/main.py`
(`svg_from_prompt`, `generate_image`, `list_generations`) together with the
parts of CPython's `random` module that the source calls
(`random.Random(seed)`, `randint`, `choice`, `uniform`), which drive every
pseudo-random draw.  The Mersenne-Twister (MT19937) generator is embedded
bit-exactly from CPython's `_randommodule.c` / `random.py`:
`init_genrand`, `init_by_array`, the in-place twist, the tempering of
output words, `getrandbits`, `_randbelow_with_getrandbits`, `randrange`,
`choice` and `random()` (the 53-bit double construction).

Modelling conventions:
* machine words are `Nat` reduced `% 2 ^ 32` exactly where the C code's
  `uint32_t` arithmetic wraps;
* the 624-word generator state is packed little-endian into a single `Nat`
  (`mtGet`/`mtSet` read and write 32-bit fields); this is only a
  representation choice for the array `mt[624]`, the arithmetic on each
  word is the C code's;
* CPython's unbounded rejection loop in `_randbelow` is given a generous
  fuel (64 rejections) and returns `Except`; on every concrete input used
  below the fuel is never exhausted, and all bound theorems hold for every
  fuel outcome;
* `random.uniform(0.2, 0.8)` is embedded at binary64 precision, exactly
  as the interpreter evaluates `0.2 + (0.8 - 0.2) * random()`: the
  literals `0.2`/`0.8` are their binary64 values, `0.8 - 0.2` rounds to
  `0.6000000000000001`, `random()` is the exact dyadic
  `((w1 >> 5) * 2^26 + (w2 >> 6)) / 2^53`, and the product and final sum
  are each rounded to 53 significant bits, half to even (`fl`); the
  circle records the exact numerator of the resulting double over
  `2^106` and `opacityVal` recovers its rational value (this pipeline was
  validated numerically against CPython).  The decimal `repr` of the
  float in the serialized SVG is abstracted by an injective deterministic
  encoding of that numerator (`opacityRepr`);
* `int(min(width, height) * 0.25)` of line 98 is likewise embedded at
  binary64 precision: the int operand is rounded to a double
  (`OverflowError` when the rounded magnitude reaches `2^1024`), the
  multiplication by `0.25` is an exact exponent shift, and `int()`
  truncates toward zero;
* Python's builtin `hash` on strings is salted per process
  (`PYTHONHASHSEED`), so it is embedded as an explicit function parameter
  `pyHash : String → Int`: one process corresponds to one choice of
  `pyHash`;
* `datetime.utcnow()` (only copied into the response's `created_at`) is
  outside the embedding; no claim mentions it;
* the storage collaborator (`create_document` / `get_documents`, defined
  in `database.py`, which is not part of the repository snapshot) is an
  explicit fallible function parameter, exactly the insert/query contract
  the source consumes inside its `try`/`except` blocks.
-/

namespace ImageGen

set_option maxRecDepth 100000

set_option exponentiation.threshold 1200

/-- `2 ^ 32`, the modulus of all `uint32_t` arithmetic in MT19937. -/
def u32 : Nat := 4294967296

/-- Read the `i`-th 32-bit word of a packed 624-word MT19937 state. -/
def mtGet (a i : Nat) : Nat := (a >>> (32 * i)) &&& 4294967295

/-- Write the `i`-th 32-bit word of a packed 624-word MT19937 state. -/
def mtSet (a i v : Nat) : Nat :=
  a - (mtGet a i <<< (32 * i)) + ((v &&& 4294967295) <<< (32 * i))

/-- Strict application: `seqNat n k = k n`, but case analysis on `n` forces
`n` to a literal before `k` is applied.  Purely an evaluation-order device
keeping kernel reduction of the iterated loops below at constant stack
depth; it does not change any value. -/
def seqNat {α : Type} (n : Nat) (k : Nat → α) : α :=
  match n with
  | 0 => k 0
  | m + 1 => k (m + 1)

/-- Strict application of a continuation to a forced pair. -/
def seq2 {α : Type} (t : Nat × Nat) (k : Nat → Nat → α) : α :=
  seqNat t.1 fun a => seqNat t.2 fun b => k a b

/-- Strict application of a continuation to a forced triple. -/
def seq3 {α : Type} (t : Nat × Nat × Nat) (k : Nat → Nat → Nat → α) : α :=
  seqNat t.1 fun a => seqNat t.2.1 fun b => seqNat t.2.2 fun c => k a b c

/-- One step of CPython's `init_genrand` loop:
`mt[i] = (1812433253 * (mt[i-1] ^ (mt[i-1] >> 30)) + i) & 0xffffffff`.
Returns the new word, the next index, and the accumulated packed state. -/
def igNext (prev i acc : Nat) : Nat × Nat × Nat :=
  let v := (1812433253 * (prev ^^^ (prev >>> 30)) + i) % u32
  (v, i + 1, acc ||| (v <<< (32 * i)))

/-- The `init_genrand` loop, iterated `fuel` times (four steps per
recursion level to keep kernel reduction shallow; the `+1` case covers the
remainder). -/
def igAux : Nat → Nat → Nat → Nat → Nat
  | _, _, acc, 0 => acc
  | prev, i, acc, fuel + 4 =>
    seq3 (igNext prev i acc) fun p1 i1 a1 =>
    seq3 (igNext p1 i1 a1) fun p2 i2 a2 =>
    seq3 (igNext p2 i2 a2) fun p3 i3 a3 =>
    seq3 (igNext p3 i3 a3) fun p4 i4 a4 =>
    igAux p4 i4 a4 fuel
  | prev, i, acc, fuel + 1 =>
    seq3 (igNext prev i acc) fun p1 i1 a1 => igAux p1 i1 a1 fuel

/-- CPython's `init_genrand(s)`: fills the 624-word state from a 32-bit seed. -/
def initGenrand (s : Nat) : Nat := igAux (s % u32) 1 (s % u32) 623

/-- One step of the first `init_by_array` loop:
`mt[i] = (mt[i] ^ ((mt[i-1] ^ (mt[i-1] >> 30)) * 1664525)) + key[j] + j`
(all mod `2^32`), then `i++`, `j++`, with `i` wrapping via
`mt[0] = mt[623]; i = 1` and `j` cycling through the key. -/
def ibaNext1 (key : List Nat) (mt i j : Nat) : Nat × Nat × Nat :=
  let prev := mtGet mt (i - 1)
  let v := ((mtGet mt i ^^^ ((prev ^^^ (prev >>> 30)) * 1664525)) + key.getD j 0 + j) % u32
  let mt1 := mtSet mt i v
  let i1 := i + 1
  let p := if 624 ≤ i1 then (mtSet mt1 0 (mtGet mt1 623), 1) else (mt1, i1)
  let j1 := if key.length ≤ j + 1 then 0 else j + 1
  (p.1, p.2, j1)

/-- First `init_by_array` loop iterated `fuel` times; returns the state and
the final index `i`. -/
def ibaStep1 (key : List Nat) : Nat → Nat → Nat → Nat → Nat × Nat
  | mt, i, _, 0 => (mt, i)
  | mt, i, j, fuel + 4 =>
    seq3 (ibaNext1 key mt i j) fun m1 i1 j1 =>
    seq3 (ibaNext1 key m1 i1 j1) fun m2 i2 j2 =>
    seq3 (ibaNext1 key m2 i2 j2) fun m3 i3 j3 =>
    seq3 (ibaNext1 key m3 i3 j3) fun m4 i4 j4 =>
    ibaStep1 key m4 i4 j4 fuel
  | mt, i, j, fuel + 1 =>
    seq3 (ibaNext1 key mt i j) fun m1 i1 j1 => ibaStep1 key m1 i1 j1 fuel

/-- One step of the second `init_by_array` loop:
`mt[i] = (mt[i] ^ ((mt[i-1] ^ (mt[i-1] >> 30)) * 1566083941)) - i`
(mod `2^32`; `i < 2^32`, so the wrapping subtraction is `+ (u32 - i)`),
with the same wrap of `i`. -/
def ibaNext2 (mt i : Nat) : Nat × Nat :=
  let prev := mtGet mt (i - 1)
  let x := mtGet mt i ^^^ ((prev ^^^ (prev >>> 30)) * 1566083941)
  let v := (x % u32 + (u32 - i)) % u32
  let mt1 := mtSet mt i v
  let i1 := i + 1
  if 624 ≤ i1 then (mtSet mt1 0 (mtGet mt1 623), 1) else (mt1, i1)

/-- Second `init_by_array` loop iterated `fuel` times. -/
def ibaStep2 : Nat → Nat → Nat → Nat
  | mt, _, 0 => mt
  | mt, i, fuel + 4 =>
    seq2 (ibaNext2 mt i) fun m1 i1 =>
    seq2 (ibaNext2 m1 i1) fun m2 i2 =>
    seq2 (ibaNext2 m2 i2) fun m3 i3 =>
    seq2 (ibaNext2 m3 i3) fun m4 i4 =>
    ibaStep2 m4 i4 fuel
  | mt, i, fuel + 1 =>
    seq2 (ibaNext2 mt i) fun m1 i1 => ibaStep2 m1 i1 fuel

/-- CPython's `init_by_array(key)`: `init_genrand(19650218)`, the two mixing
loops (the first runs `max(624, len(key))` times, the second 623), then
`mt[0] = 0x80000000`. -/
def initByArray (key : List Nat) : Nat :=
  let p := ibaStep1 key (initGenrand 19650218) 1 0 (max 624 key.length)
  let mt := ibaStep2 p.1 p.2 623
  mtSet mt 0 2147483648

/-- One in-place step of the MT19937 twist (`genrand_uint32`'s refill):
`y = (mt[kk] & 0x80000000) | (mt[(kk+1)%624] & 0x7fffffff);`
`mt[kk] = mt[(kk+397)%624] ^ (y >> 1) ^ (y & 1 ? 0x9908b0df : 0)`.
Reading from the state being updated reproduces the C code's in-place
semantics (indices below `kk` hold new values, the rest old ones). -/
def twistNext (mt kk : Nat) : Nat × Nat :=
  let y := (mtGet mt kk &&& 2147483648) ||| (mtGet mt ((kk + 1) % 624) &&& 2147483647)
  let v := mtGet mt ((kk + 397) % 624) ^^^ (y >>> 1) ^^^ (if y % 2 = 1 then 2567483615 else 0)
  (mtSet mt kk v, kk + 1)

/-- The twist loop iterated `fuel` times. -/
def twistStep : Nat → Nat → Nat → Nat
  | mt, _, 0 => mt
  | mt, kk, fuel + 4 =>
    seq2 (twistNext mt kk) fun m1 k1 =>
    seq2 (twistNext m1 k1) fun m2 k2 =>
    seq2 (twistNext m2 k2) fun m3 k3 =>
    seq2 (twistNext m3 k3) fun m4 k4 =>
    twistStep m4 k4 fuel
  | mt, kk, fuel + 1 =>
    seq2 (twistNext mt kk) fun m1 k1 => twistStep m1 k1 fuel

/-- Full MT19937 twist over the 624 words. -/
def twist (mt : Nat) : Nat := twistStep mt 0 624

/-- MT19937 output tempering (from `genrand_uint32`):
`y ^= y >> 11; y ^= (y << 7) & 0x9d2c5680; y ^= (y << 15) & 0xefc60000;`
`y ^= y >> 18` (all on `uint32_t`, so the result is reduced `% 2^32`;
numerically the reduction never changes the value). -/
def temper (x : Nat) : Nat :=
  let y0 := x % u32
  let y1 := y0 ^^^ (y0 >>> 11)
  let y2 := y1 ^^^ ((y1 <<< 7) &&& 2636928640)
  let y3 := y2 ^^^ ((y2 <<< 15) &&& 4022730752)
  (y3 ^^^ (y3 >>> 18)) % u32

/-- MT19937 generator state: the packed 624-word array and the output index
(`self->index` in `_randommodule.c`). -/
structure MTState where
  mt : Nat
  mti : Nat
deriving Repr, DecidableEq

/-- CPython's `genrand_uint32`: twist when the 624 words are exhausted, then
output the next tempered word. -/
def genrand (s : MTState) : Nat × MTState :=
  if 624 ≤ s.mti then
    let m := twist s.mt
    (temper (mtGet m 0), ⟨m, 1⟩)
  else
    (temper (mtGet s.mt s.mti), ⟨s.mt, s.mti + 1⟩)

/-- CPython's `getrandbits(k)` for `1 ≤ k ≤ 32`: the top `k` bits of one
output word. -/
def pyGetrandbits (k : Nat) (s : MTState) : Nat × MTState :=
  let p := genrand s
  (p.1 >>> (32 - k), p.2)

/-- Errors the embedded Python-level computation can produce:
`ValueError` (empty `randrange` range), `OverflowError` (an int too large
to convert to binary64 in `min * 0.25`), or exhaustion of the fuel
bounding CPython's unbounded rejection loop. -/
inductive PyErr
  | valueError
  | overflowError
  | fuelExhausted
deriving Repr, DecidableEq

/-- Fueled binary length: `bitLenAux n fuel = n.bit_length()` whenever
`n < 2 ^ fuel` (the recursion stops as soon as the argument reaches zero,
so the cost is the actual bit count, not the fuel; 1100 units of fuel
cover every magnitude a binary64 computation can produce). -/
def bitLenAux (n : Nat) : Nat → Nat
  | 0 => 0
  | fuel + 1 => if n = 0 then 0 else bitLenAux (n / 2) fuel + 1

/-- Python's `int.bit_length()` (exact for `n < 2 ^ 1100`). -/
def pyBitLength (n : Nat) : Nat := bitLenAux n 1100

/-- Rejection loop of CPython's `_randbelow_with_getrandbits`:
draw `getrandbits(k)` until the value is `< n`. -/
def randbelowAux (n k : Nat) : MTState → Nat → Except PyErr (Nat × MTState)
  | _, 0 => .error .fuelExhausted
  | s, fuel + 1 =>
    let p := pyGetrandbits k s
    if p.1 < n then .ok (p.1, p.2) else randbelowAux n k p.2 fuel

/-- Fuel for the rejection loop (CPython's loop is unbounded; 64 rejections
are never reached on any input evaluated in this file). -/
def rbFuel : Nat := 64

/-- CPython's `_randbelow_with_getrandbits(n)` for `n ≥ 1`:
`k = n.bit_length()`, then the rejection loop. -/
def randbelow (n : Nat) (s : MTState) : Except PyErr (Nat × MTState) :=
  randbelowAux n (pyBitLength n) s rbFuel

/-- CPython's `randint(a, b)` = `randrange(a, b+1)`:
`ValueError` on an empty range, else `a + _randbelow(b - a + 1)`. -/
def pyRandint (a b : Int) (s : MTState) : Except PyErr (Int × MTState) :=
  if b < a then .error .valueError
  else
    match randbelow (b - a + 1).toNat s with
    | .error e => .error e
    | .ok p => .ok (a + (p.1 : Int), p.2)

/-- CPython's `choice(seq)`: `seq[_randbelow(len(seq))]`. -/
def pyChoice (l : List String) (s : MTState) : Except PyErr (String × MTState) :=
  match randbelow l.length s with
  | .error e => .error e
  | .ok p => .ok (l.getD p.1 "", p.2)

/-- CPython's `random()` (`genrand_res53`): two output words combined into
the value `((w1 >> 5) * 2^26 + (w2 >> 6)) / 2^53`.  This returns the
numerator over the fixed denominator `2^53`. -/
def random53 (s : MTState) : Nat × MTState :=
  let p := genrand s
  let q := genrand p.2
  ((p.1 >>> 5) * 67108864 + (q.1 >>> 6), q.2)

/-- Round-half-to-even of `m` to a multiple of `2 ^ sh`, returned divided
by `2 ^ sh`: the rounding step of binary64 arithmetic. -/
def roundHalfEven (m sh : Nat) : Nat :=
  if sh = 0 then m
  else if 2 ^ (sh - 1) < m % 2 ^ sh then m / 2 ^ sh + 1
  else if m % 2 ^ sh < 2 ^ (sh - 1) then m / 2 ^ sh
  else if (m / 2 ^ sh) % 2 = 0 then m / 2 ^ sh else m / 2 ^ sh + 1

/-- Binary64 rounding of a nonnegative numerator at a fixed power-of-two
scale: round to 53 significant bits, half to even.  Exact IEEE-754
round-to-nearest for every normal, non-overflowing magnitude, because
rounding to 53 significant bits is independent of the exponent. -/
def fl (m : Nat) : Nat :=
  let L := bitLenAux m 1100
  if L ≤ 53 then m else roundHalfEven m (L - 53) * 2 ^ (L - 53)

/-- The binary64 value of the literal `0.2` (`3602879701896397 * 2^-54`)
as a numerator over `2^106`. -/
def fl02s : Nat := 3602879701896397 * 4503599627370496

/-- The binary64 value of the literal `0.8` (`3602879701896397 * 2^-52`)
as a numerator over `2^106`. -/
def fl08s : Nat := 3602879701896397 * 18014398509481984

/-- CPython's `uniform(0.2, 0.8) = 0.2 + (0.8 - 0.2) * random()`, computed
in binary64 exactly as the interpreter does: `0.8 - 0.2` (exact at the
common scale, then rounded — the double `0.6000000000000001`), the
product with `random() = n / 2^53`, and the final sum are each rounded
once by `fl`.  Returns the exact numerator of the resulting double over
`2^106` (every double this can produce is an integer multiple of
`2^-106`, so the `>>> 106` rescaling of the product is an exact shift).
At `n = 2^53 - 1` the result is exactly the binary64 value of `0.8`. -/
def uniformOpacityNum (n : Nat) : Nat :=
  let c := fl (fl08s - fl02s)
  let t := fl (c * (n <<< 53)) >>> 106
  fl (fl02s + t)

/-- The two output words of one `uniform(0.2, 0.8)` call, combined into
the rounded opacity numerator. -/
def uniformOpacity (s : MTState) : Nat × MTState :=
  let p := random53 s
  (uniformOpacityNum p.1, p.2)

/-- Little-endian 32-bit words of `n`, with explicit recursion fuel (one
word per fuel unit; 20 units cover every `n < 2^640`, far beyond any seed
below, and both occurrences inside any equality proved in this file are
applied to identical values, so the cap never affects a statement). -/
def keyOfAux (n : Nat) : Nat → List Nat
  | 0 => [n % u32]
  | fuel + 1 => if n < u32 then [n] else n % u32 :: keyOfAux (n / u32) fuel

/-- Little-endian 32-bit words of a seed value, as CPython's `random_seed`
splits the absolute value of an int key for `init_by_array` (a zero seed
gives the single-word key `[0]`). -/
def keyOf (n : Nat) : List Nat := keyOfAux n 20

/-- `random.Random(seed)`: seed the MT19937 state from the 32-bit words of
`|seed|` and force a twist on the first draw (`index = 624`). -/
def mtInit (seed : Int) : MTState := ⟨initByArray (keyOf seed.natAbs), 624⟩

/-- The 6-entry circle fill palette of `svg_from_prompt` (`colors`). -/
def colors : List String :=
  ["#8b5cf6", "#06b6d4", "#ec4899", "#f59e0b", "#10b981", "#3b82f6"]

/-- The 4-entry dark background palette of `svg_from_prompt`. -/
def darkPalette : List String :=
  ["#0f172a", "#111827", "#0b1020", "#0a0f1f"]

/-- One circle descriptor of the scene: the five drawn attributes, in the
order the source draws them (`cx`, `cy`, `r`, `color`, `opacity`); the
opacity double is recorded by its exact numerator over `2^106` (see
`uniformOpacity` and `opacityVal`). -/
structure Circle where
  cx : Int
  cy : Int
  r : Int
  color : String
  opacityNum : Nat
deriving Repr, DecidableEq

/-- The exact rational value of the binary64 opacity a circle records
(numerator over `2^106`). -/
def opacityVal (c : Circle) : ℚ := (c.opacityNum : ℚ) / 81129638414606681695789005144064

/-- The intermediate scene `svg_from_prompt` serializes: background,
circle list (in generation order), escaped truncated label, font size. -/
structure Scene where
  bg : String
  circles : List Circle
  label : String
  fontSize : Int
deriving Repr, DecidableEq

/-- Python's `int(n * 0.25)` for an int `n`: `n` is first converted to
binary64 (`fl` of its magnitude; `OverflowError` when the rounded
magnitude reaches `2^1024`), the multiplication by `0.25` is an exact
exponent shift, and `int()` truncates toward zero.  For `|n| < 2^53` the
conversion is exact and the result is the truncated exact quotient
`n / 4`. -/
def intTimesQuarter (n : Int) : Except PyErr Int :=
  let f := fl n.natAbs
  if 2 ^ 1024 ≤ f then .error .overflowError
  else .ok (Int.tdiv (if n < 0 then -(f : Int) else (f : Int)) 4)

/-- The radius cap expression of line 98:
`int(min(width, height) * 0.25)`. -/
def radiusCap (w h : Int) : Except PyErr Int := intTimesQuarter (min w h)

/-- One loop iteration of `svg_from_prompt`'s shape loop: the five draws for
one circle, in source order. -/
def drawCircle (w h : Int) (s : MTState) : Except PyErr (Circle × MTState) :=
  match pyRandint 0 w s with
  | .error e => .error e
  | .ok (cx, s1) =>
    match pyRandint 0 h s1 with
    | .error e => .error e
    | .ok (cy, s2) =>
      match radiusCap w h with
      | .error e => .error e
      | .ok cap =>
        match pyRandint 20 cap s2 with
        | .error e => .error e
        | .ok (r, s3) =>
          match pyChoice colors s3 with
          | .error e => .error e
          | .ok (c, s4) =>
            let p := uniformOpacity s4
            .ok (⟨cx, cy, r, c, p.1⟩, p.2)

/-- The `for _ in range(n)` shape loop, appending circles in loop order. -/
def circlesLoop (w h : Int) : MTState → Nat → Except PyErr (List Circle × MTState)
  | s, 0 => .ok ([], s)
  | s, n + 1 =>
    match drawCircle w h s with
    | .error e => .error e
    | .ok (c, s1) =>
      match circlesLoop w h s1 n with
      | .error e => .error e
      | .ok (cs, s2) => .ok (c :: cs, s2)

/-- Escaping of one character as in
`prompt.replace("<", "&lt;").replace(">", "&gt;")`. -/
def escChar (c : Char) : List Char :=
  if c = '<' then ['&', 'l', 't', ';']
  else if c = '>' then ['&', 'g', 't', ';'] else [c]

/-- `prompt.replace("<", "&lt;").replace(">", "&gt;")`: both patterns are
single characters and neither replacement contains `<` or `>`, so one
left-to-right pass over the characters is exact. -/
def pyEscape (p : String) : String :=
  ⟨p.data.foldr (fun c acc => escChar c ++ acc) []⟩

/-- The overlay label: escaped prompt truncated to 48 characters
(`safe_prompt[:48]`). -/
def labelOf (p : String) : String := String.mk ((pyEscape p).data.take 48)

/-- The label font size: Python floor division `min(width, height) // 18`. -/
def fontSizeOf (w h : Int) : Int := Int.fdiv (min w h) 18

/-- Scene construction of `svg_from_prompt` after the stream is seeded:
background (one `choice` from the dark palette iff the prompt is nonempty
and of even length, else the fixed `"#0b1220"`, consuming no draw), then
the 18-circle loop. -/
def composeScene (p : String) (s : MTState) (w h : Int) : Except PyErr Scene :=
  let bgStep : Except PyErr (String × MTState) :=
    if p ≠ "" ∧ p.length % 2 = 0 then pyChoice darkPalette s else .ok ("#0b1220", s)
  match bgStep with
  | .error e => .error e
  | .ok (bg, s1) =>
    match circlesLoop w h s1 18 with
    | .error e => .error e
    | .ok (cs, _) => .ok ⟨bg, cs, labelOf p, fontSizeOf w h⟩

/-- Deterministic injective stand-in for Python's shortest float `repr` of
the opacity (the exact numerator of the double over `2^106`; distinct
doubles have distinct numerators, mirroring the injectivity of `repr`). -/
def opacityRepr (n : Nat) : String := toString n ++ "/81129638414606681695789005144064"

/-- Serialization of one circle:
`<circle cx=".." cy=".." r=".." fill=".." fill-opacity=".." />`. -/
def circleSvg (c : Circle) : String :=
  "<circle cx=\"" ++ toString c.cx ++ "\" cy=\"" ++ toString c.cy ++ "\" r=\"" ++ toString c.r ++ "\" fill=\"" ++ c.color ++ "\" fill-opacity=\"" ++ opacityRepr c.opacityNum ++ "\" />"

/-- The SVG document template of `svg_from_prompt`, transcribed verbatim
(`text_color = "white"` inlined as in the source's f-string). -/
def svgRender (sc : Scene) (w h : Int) : String :=
  "<svg xmlns=\"http://www.w3.org/2000/svg\" width=\"" ++ toString w ++ "\" height=\"" ++ toString h ++ "\">\n      <rect width=\"100%\" height=\"100%\" fill=\"" ++ sc.bg ++ "\"/>\n      <g filter=\"url(#blur)\"> " ++ String.join (sc.circles.map circleSvg) ++ " </g>\n      <defs>\n        <filter id=\"blur\"><feGaussianBlur in=\"SourceGraphic\" stdDeviation=\"20\" /></filter>\n      </defs>\n      <text x=\"50%\" y=\"50%\" dominant-baseline=\"middle\" text-anchor=\"middle\" fill=\"white\" font-family=\"Inter, system-ui\" font-size=\"" ++ toString sc.fontSize ++ "\" opacity=\"0.9\">" ++ sc.label ++ "</text>\n    </svg>"

/-- UTF-8 encoding of one character (`svg.encode("utf-8")`). -/
def utf8Char (c : Char) : List Nat :=
  let n := c.toNat
  if n < 128 then [n]
  else if n < 2048 then [192 ||| (n >>> 6), 128 ||| (n &&& 63)]
  else if n < 65536 then
    [224 ||| (n >>> 12), 128 ||| ((n >>> 6) &&& 63), 128 ||| (n &&& 63)]
  else
    [240 ||| (n >>> 18), 128 ||| ((n >>> 12) &&& 63), 128 ||| ((n >>> 6) &&& 63), 128 ||| (n &&& 63)]

/-- UTF-8 bytes of a string. -/
def utf8Bytes (s : String) : List Nat :=
  s.data.foldr (fun c acc => utf8Char c ++ acc) []

/-- The base64 alphabet. -/
def b64Table : List Char :=
  "ABCDEFGHIJKLMNOPQRSTUVWXYZabcdefghijklmnopqrstuvwxyz0123456789+/".data

/-- One base64 digit. -/
def b64c (n : Nat) : Char := b64Table.getD n 'A'

/-- The four base64 digits of one 3-byte group. -/
def b64Group (a b c : Nat) : List Char :=
  [b64c (a >>> 2), b64c (((a &&& 3) <<< 4) ||| (b >>> 4)),
    b64c (((b &&& 15) <<< 2) ||| (c >>> 6)), b64c (c &&& 63)]

/-- Standard base64 encoding (`base64.b64encode`), with `=` padding (four
3-byte groups are consumed per recursion level to keep kernel evaluation
shallow; the single-group case covers the remainder). -/
def base64Encode : List Nat → String
  | [] => ""
  | [a] => String.mk [b64c (a >>> 2), b64c ((a &&& 3) <<< 4), '=', '=']
  | [a, b] =>
    String.mk [b64c (a >>> 2), b64c (((a &&& 3) <<< 4) ||| (b >>> 4)), b64c ((b &&& 15) <<< 2), '=']
  | a1 :: b1 :: c1 :: a2 :: b2 :: c2 :: a3 :: b3 :: c3 :: a4 :: b4 :: c4 :: rest =>
    String.mk (b64Group a1 b1 c1 ++ b64Group a2 b2 c2 ++ b64Group a3 b3 c3 ++ b64Group a4 b4 c4)
      ++ base64Encode rest
  | a :: b :: c :: rest => String.mk (b64Group a b c) ++ base64Encode rest

/-- The data-URI prefix `"data:image/svg+xml;base64,"` of line 112. -/
def dataUriHead : String := "data:image/svg+xml;base64,"

/-- The seed expression of line 88:
`seed or hash(prompt) % (2**32 - 1)` — the integer actually handed to
`random.Random`.  A `None` or `0` seed (both falsy) falls back to the
prompt-hash path; any other explicit seed is passed through unchanged.
`pyHash` is the process's builtin string hash. -/
def resolvedSeed (pyHash : String → Int) (p : String) : Option Int → Int
  | some v => if v = 0 then pyHash p % 4294967295 else v
  | none => pyHash p % 4294967295

/-- `svg_from_prompt(prompt, seed, width, height)`: seed the stream, compose
the scene, serialize and wrap as a base64 data URI. -/
def svgFromPrompt (pyHash : String → Int) (p : String) (seed : Option Int) (w h : Int) :
    Except PyErr String :=
  match composeScene p (mtInit (resolvedSeed pyHash p seed)) w h with
  | .error e => .error e
  | .ok sc => .ok (dataUriHead ++ base64Encode (utf8Bytes (svgRender sc w h)))

/-- Python's `str.strip()` with no argument (leading/trailing whitespace
removed; the embedding uses Lean's `Char.isWhitespace`, which agrees on
the ASCII whitespace appearing in realistic prompts). -/
def pyStrip (s : String) : String :=
  ⟨((s.data.dropWhile Char.isWhitespace).reverse.dropWhile Char.isWhitespace).reverse⟩

/-- The inbound request body of `POST /api/generate` (`GenerateRequest`
pydantic model), with the source's defaults. -/
structure GenerateRequest where
  prompt : String
  style : Option String := none
  seed : Option Int := none
  width : Int := 1024
  height : Int := 1024

/-- The record handed to the storage collaborator (the `Generation`
document built on lines 125-133; `tags=None` and `created_at` are store
concerns carried outside the embedding). -/
structure GenRecord where
  prompt : String
  style : Option String
  seed : Option Int
  width : Int
  height : Int
  image_data_url : String

/-- Failures of the storage collaborator (`create_document` /
`get_documents` raising: store unavailable, write or read error). -/
inductive StoreErr
  | unavailable
  | writeFailed
  | readFailed
deriving Repr, DecidableEq

/-- The response body of `POST /api/generate` (`GenerateResponse` without
the wall-clock `created_at`). -/
structure GenerateResponse where
  id : String
  prompt : String
  style : Option String
  seed : Option Int
  width : Int
  height : Int
  image_data_url : String
deriving Repr, DecidableEq

/-- Outcomes of `generate_image` other than a 200 response: the explicit
`HTTPException(400)` for an empty/whitespace prompt, or an uncaught Python
exception escaping `svg_from_prompt` (surfaced by the framework as a
server error, not a 400). -/
inductive GenErr
  | badRequest
  | uncaught (e : PyErr)
deriving Repr, DecidableEq

/-- `generate_image(req)` (lines 117-148): validate the prompt, synthesize
the image, then attempt persistence inside `try`/`except` — on any store
failure the id falls back to the sentinel `"no-db"` and the response is
returned regardless.  `store` is the insert contract of the collaborator;
`pyHash` is the process's builtin string hash. -/
def generateImage (pyHash : String → Int) (store : GenRecord → Except StoreErr String)
    (req : GenerateRequest) : Except GenErr GenerateResponse :=
  if req.prompt = "" ∨ (pyStrip req.prompt).length = 0 then .error .badRequest
  else
    match svgFromPrompt pyHash (pyStrip req.prompt) req.seed req.width req.height with
    | .error e => .error (.uncaught e)
    | .ok url =>
      let doc : GenRecord :=
        ⟨pyStrip req.prompt, req.style, req.seed, req.width, req.height, url⟩
      let insertedId : String :=
        match store doc with
        | .ok i => i
        | .error _ => "no-db"
      .ok ⟨insertedId, pyStrip req.prompt, req.style, req.seed, req.width, req.height, url⟩

/-- A stored generation document as returned by the query contract
(`d.get(...)` fields may be absent; `created_at` is an opaque timestamp
rendered to its ISO string when present). -/
structure StoredDoc where
  docId : Option String
  prompt : Option String
  style : Option String
  seed : Option Int
  width : Option Int
  height : Option Int
  image_data_url : Option String
  created_at : Option String
deriving Repr, DecidableEq

/-- One item of the `GET /api/generations` response (lines 158-167). -/
structure ListItem where
  id : String
  prompt : Option String
  style : Option String
  seed : Option Int
  width : Option Int
  height : Option Int
  image_data_url : Option String
  created_at : Option String
deriving Repr, DecidableEq

/-- Projection of one stored document to a response item
(`str(d.get("_id", ""))`, the `.get` fields, `isoformat` when present). -/
def projectDoc (d : StoredDoc) : ListItem :=
  ⟨d.docId.getD "", d.prompt, d.style, d.seed, d.width, d.height, d.image_data_url, d.created_at⟩

/-- `list_generations(limit)` (lines 152-174): query the store, project the
documents, reverse for newest-first; every exception from the query is
mapped to the empty item list. -/
def listGenerations (store : Int → Except StoreErr (List StoredDoc)) (limit : Int) :
    List ListItem :=
  match store limit with
  | .error _ => []
  | .ok docs => (docs.map projectDoc).reverse

/-- Boolean success test for `Except`. -/
def isOkE {ε α : Type} : Except ε α → Bool
  | .ok _ => true
  | .error _ => false

instance {ε α : Type} [DecidableEq ε] [DecidableEq α] : DecidableEq (Except ε α) :=
  fun a b =>
    match a, b with
    | .error x, .error y =>
      if h : x = y then .isTrue (h ▸ rfl) else .isFalse (fun hc => h (Except.error.inj hc))
    | .ok x, .ok y =>
      if h : x = y then .isTrue (h ▸ rfl) else .isFalse (fun hc => h (Except.ok.inj hc))
    | .error _, .ok _ => .isFalse (fun hc => Except.noConfusion hc)
    | .ok _, .error _ => .isFalse (fun hc => Except.noConfusion hc)

/-- Packed key of a character list: `strKeyAux cs len acc` extends `acc`
with one 32-bit slot per character (every `Char` code point fits in 32
bits) and counts the length, so the final `(length, packed)` pair
determines the list uniquely.  Eight characters are consumed per recursion
level to keep kernel evaluation shallow. -/
def strKeyAux : List Char → Nat → Nat → Nat × Nat
  | [], len, acc => (len, acc)
  | c1 :: c2 :: c3 :: c4 :: c5 :: c6 :: c7 :: c8 ::
      d1 :: d2 :: d3 :: d4 :: d5 :: d6 :: d7 :: d8 :: rest, len, acc =>
    seq2 (acc ||| (c1.toNat <<< (32 * len)) ||| (c2.toNat <<< (32 * (len + 1))) |||
        (c3.toNat <<< (32 * (len + 2))) ||| (c4.toNat <<< (32 * (len + 3))) |||
        (c5.toNat <<< (32 * (len + 4))) ||| (c6.toNat <<< (32 * (len + 5))) |||
        (c7.toNat <<< (32 * (len + 6))) ||| (c8.toNat <<< (32 * (len + 7))) |||
        (d1.toNat <<< (32 * (len + 8))) ||| (d2.toNat <<< (32 * (len + 9))) |||
        (d3.toNat <<< (32 * (len + 10))) ||| (d4.toNat <<< (32 * (len + 11))) |||
        (d5.toNat <<< (32 * (len + 12))) ||| (d6.toNat <<< (32 * (len + 13))) |||
        (d7.toNat <<< (32 * (len + 14))) ||| (d8.toNat <<< (32 * (len + 15))), len + 16)
      fun a l => strKeyAux rest l a
  | c :: rest, len, acc =>
    seq2 (acc ||| (c.toNat <<< (32 * len)), len + 1) fun a l => strKeyAux rest l a

/-- Injective packed key of a string (used to compare long generated
strings by a single pair of numbers: equal strings have equal keys). -/
def strKey (s : String) : Nat × Nat := strKeyAux s.data 0 0

/-- Packed key of a fallible string result. -/
def exceptKey : Except PyErr String → Option (Nat × Nat)
  | .error _ => none
  | .ok s => some (strKey s)

/-- The per-circle bounds invariant, with the radius cap and opacity
interval exactly as the source draws them: the radius is bounded by the
code's `int(min(width, height) * 0.25)` (which equals the mathematical
`floor` for dimensions below `2^53`), and the opacity double lies in
`[0.2, fl(0.8)]` — the upper endpoint `3602879701896397/2^52` is the
binary64 value of the literal `0.8`, slightly above `4/5`, and is
attained at the boundary draw `random() = (2^53 - 1)/2^53`. -/
def CircleInv (w h : Int) (c : Circle) : Prop :=
  0 ≤ c.cx ∧ c.cx ≤ w ∧ 0 ≤ c.cy ∧ c.cy ≤ h ∧ 20 ≤ c.r ∧
    (∀ cap, radiusCap w h = .ok cap → c.r ≤ cap) ∧
    c.color ∈ colors ∧ (1 : ℚ) / 5 ≤ opacityVal c ∧
    opacityVal c ≤ 3602879701896397 / 4503599627370496

/-- The opacity numerator of the first circle of a composed scene, when
composition succeeds (observation function used to exhibit the boundary
opacity draw on a concrete state). -/
def headOpacityNum : Except PyErr Scene → Option Nat
  | .error _ => none
  | .ok sc => (sc.circles.map Circle.opacityNum).head?

/-! ### Properties of the embedded `random` primitives -/

theorem temper_lt (x : Nat) : temper x < u32 := by
  unfold temper
  exact Nat.mod_lt _ (by norm_num [u32])

theorem genrand_lt (s : MTState) : (genrand s).1 < u32 := by
  unfold genrand
  split
  · exact temper_lt _
  · exact temper_lt _

theorem randbelowAux_lt {n k : Nat} :
    ∀ {fuel : Nat} {s : MTState} {r : Nat} {s' : MTState},
      randbelowAux n k s fuel = .ok (r, s') → r < n := by
  intro fuel
  induction fuel with
  | zero => intro s r s' hr; exact absurd hr (by simp [randbelowAux])
  | succ f ih =>
    intro s r s' hr
    rw [randbelowAux] at hr
    split at hr
    · rename_i hc
      simp only [Except.ok.injEq, Prod.mk.injEq] at hr
      omega
    · exact ih hr

theorem randbelow_lt {n : Nat} {s : MTState} {r : Nat} {s' : MTState}
    (hr : randbelow n s = .ok (r, s')) : r < n :=
  randbelowAux_lt hr

theorem pyRandint_bounds {a b : Int} {s : MTState} {r : Int} {s' : MTState}
    (hr : pyRandint a b s = .ok (r, s')) : a ≤ r ∧ r ≤ b := by
  unfold pyRandint at hr
  split at hr
  · exact absurd hr (by simp)
  · rename_i hba
    cases hrb : randbelow (b - a + 1).toNat s with
    | error e => rw [hrb] at hr; exact absurd hr (by simp)
    | ok p =>
      rw [hrb] at hr
      have hlt := randbelow_lt hrb
      simp only [Except.ok.injEq, Prod.mk.injEq] at hr
      obtain ⟨hre, _⟩ := hr
      omega

theorem pyChoice_mem {l : List String} {s : MTState} {c : String} {s' : MTState}
    (hc : pyChoice l s = .ok (c, s')) : c ∈ l := by
  unfold pyChoice at hc
  cases hrb : randbelow l.length s with
  | error e => rw [hrb] at hc; exact absurd hc (by simp)
  | ok p =>
    rw [hrb] at hc
    have hlt := randbelow_lt hrb
    simp only [Except.ok.injEq, Prod.mk.injEq] at hc
    obtain ⟨hce, _⟩ := hc
    subst hce
    rw [List.getD_eq_getElem?_getD, List.getElem?_eq_getElem hlt]
    exact List.getElem_mem hlt

theorem random53_lt (s : MTState) : (random53 s).1 < 9007199254740992 := by
  have h1 := genrand_lt s
  have h2 := genrand_lt (genrand s).2
  show ((genrand s).1 >>> 5) * 67108864 + ((genrand (genrand s).2).1 >>> 6) < 9007199254740992
  rw [Nat.shiftRight_eq_div_pow, Nat.shiftRight_eq_div_pow]
  simp only [u32] at h1 h2
  omega

theorem bitLenAux_zero (fuel : Nat) : bitLenAux 0 fuel = 0 := by
  cases fuel <;> simp [bitLenAux]

theorem bitLenAux_lt : ∀ (fuel n : Nat), n < 2 ^ fuel → n < 2 ^ bitLenAux n fuel := by
  intro fuel
  induction fuel with
  | zero =>
    intro n hn
    simpa [bitLenAux] using hn
  | succ f ih =>
    intro n hn
    rw [bitLenAux]
    by_cases h0 : n = 0
    · subst h0
      simp
    · rw [if_neg h0]
      have hd : n / 2 < 2 ^ f := by
        rw [pow_succ] at hn
        omega
      have hr := ih (n / 2) hd
      rw [pow_succ]
      omega

theorem bitLenAux_le : ∀ (fuel n : Nat), 0 < n → 2 ^ (bitLenAux n fuel - 1) ≤ n := by
  intro fuel
  induction fuel with
  | zero =>
    intro n hn
    simpa [bitLenAux] using hn
  | succ f ih =>
    intro n hn
    rw [bitLenAux, if_neg (by omega)]
    cases hL : bitLenAux (n / 2) f with
    | zero => simpa using hn
    | succ k =>
      have h2 : 0 < n / 2 := by
        by_contra hc
        have hz : n / 2 = 0 := by omega
        rw [hz, bitLenAux_zero] at hL
        exact absurd hL (by omega)
      have hrec := ih (n / 2) h2
      rw [hL] at hrec
      simp only [Nat.add_sub_cancel] at hrec ⊢
      rw [pow_succ]
      omega

theorem bitLenAux_mono {fuel a b : Nat} (hab : a ≤ b) (hb : b < 2 ^ fuel) :
    bitLenAux a fuel ≤ bitLenAux b fuel := by
  by_contra hcon
  push_neg at hcon
  have ha0 : 0 < a := by
    rcases Nat.eq_zero_or_pos a with h0 | h0
    · rw [h0, bitLenAux_zero] at hcon
      omega
    · exact h0
  have h1 := bitLenAux_le fuel a ha0
  have h2 := bitLenAux_lt fuel b hb
  have h3 : 2 ^ bitLenAux b fuel ≤ 2 ^ (bitLenAux a fuel - 1) :=
    Nat.pow_le_pow_right (by omega) (by omega)
  omega

theorem rhe_lower (m sh : Nat) : m / 2 ^ sh ≤ roundHalfEven m sh := by
  by_cases h0 : sh = 0
  · subst h0
    simp [roundHalfEven]
  · simp only [roundHalfEven, if_neg h0]
    split_ifs <;> omega

theorem rhe_upper (m sh : Nat) : roundHalfEven m sh ≤ m / 2 ^ sh + 1 := by
  by_cases h0 : sh = 0
  · subst h0
    simp [roundHalfEven]
  · simp only [roundHalfEven, if_neg h0]
    split_ifs <;> omega

theorem rhe_mono {a b : Nat} (sh : Nat) (hab : a ≤ b) :
    roundHalfEven a sh ≤ roundHalfEven b sh := by
  by_cases h0 : sh = 0
  · subst h0
    simpa [roundHalfEven] using hab
  · have hq : a / 2 ^ sh ≤ b / 2 ^ sh := Nat.div_le_div_right hab
    by_cases hqe : a / 2 ^ sh = b / 2 ^ sh
    · have e1 := Nat.div_add_mod a (2 ^ sh)
      have e2 := Nat.div_add_mod b (2 ^ sh)
      rw [hqe] at e1
      simp only [roundHalfEven, if_neg h0]
      rw [hqe]
      split_ifs <;> omega
    · have hu := rhe_upper a sh
      have hl := rhe_lower b sh
      omega

theorem fl_upper_pow {m : Nat} (hm : m < 2 ^ 1100) : fl m ≤ 2 ^ bitLenAux m 1100 := by
  have hlt := bitLenAux_lt 1100 m hm
  simp only [fl]
  split
  · omega
  · rename_i hL
    push_neg at hL
    have hdiv : m / 2 ^ (bitLenAux m 1100 - 53) < 2 ^ 53 := by
      rw [Nat.div_lt_iff_lt_mul (Nat.two_pow_pos _)]
      calc m < 2 ^ bitLenAux m 1100 := hlt
        _ = 2 ^ 53 * 2 ^ (bitLenAux m 1100 - 53) := by
            rw [← pow_add]
            congr 1
            omega
    have hrb := rhe_upper m (bitLenAux m 1100 - 53)
    calc roundHalfEven m (bitLenAux m 1100 - 53) * 2 ^ (bitLenAux m 1100 - 53)
        ≤ 2 ^ 53 * 2 ^ (bitLenAux m 1100 - 53) := Nat.mul_le_mul_right _ (by omega)
      _ = 2 ^ bitLenAux m 1100 := by
          rw [← pow_add]
          congr 1
          omega

theorem fl_lower_pow {m : Nat} (hm0 : 0 < m) : 2 ^ (bitLenAux m 1100 - 1) ≤ fl m := by
  have hle := bitLenAux_le 1100 m hm0
  simp only [fl]
  split
  · exact hle
  · rename_i hL
    push_neg at hL
    have hdiv : 2 ^ 52 ≤ m / 2 ^ (bitLenAux m 1100 - 53) := by
      rw [Nat.le_div_iff_mul_le (Nat.two_pow_pos _)]
      calc 2 ^ 52 * 2 ^ (bitLenAux m 1100 - 53) = 2 ^ (bitLenAux m 1100 - 1) := by
            rw [← pow_add]
            congr 1
            omega
        _ ≤ m := hle
    have hrb := rhe_lower m (bitLenAux m 1100 - 53)
    calc 2 ^ (bitLenAux m 1100 - 1)
        = 2 ^ 52 * 2 ^ (bitLenAux m 1100 - 53) := by
          rw [← pow_add]
          congr 1
          omega
      _ ≤ (m / 2 ^ (bitLenAux m 1100 - 53)) * 2 ^ (bitLenAux m 1100 - 53) :=
          Nat.mul_le_mul_right _ hdiv
      _ ≤ roundHalfEven m (bitLenAux m 1100 - 53) * 2 ^ (bitLenAux m 1100 - 53) :=
          Nat.mul_le_mul_right _ hrb

theorem fl_mono {a b : Nat} (hab : a ≤ b) (hb : b < 2 ^ 1100) : fl a ≤ fl b := by
  have ha : a < 2 ^ 1100 := lt_of_le_of_lt hab hb
  have hLab := bitLenAux_mono hab hb
  by_cases hLeq : bitLenAux a 1100 = bitLenAux b 1100
  · simp only [fl]
    rw [hLeq]
    by_cases hC : bitLenAux b 1100 ≤ 53
    · rw [if_pos hC, if_pos hC]
      exact hab
    · rw [if_neg hC, if_neg hC]
      exact Nat.mul_le_mul_right _ (rhe_mono _ hab)
  · have hlt : bitLenAux a 1100 < bitLenAux b 1100 := by omega
    have hb0 : 0 < b := by
      rcases Nat.eq_zero_or_pos b with h0 | h0
      · rw [h0, bitLenAux_zero] at hlt
        omega
      · exact h0
    have h1 := fl_upper_pow ha
    have h2 := fl_lower_pow hb0
    have h3 : 2 ^ bitLenAux a 1100 ≤ 2 ^ (bitLenAux b 1100 - 1) :=
      Nat.pow_le_pow_right (by omega) (by omega)
    omega

theorem uniformOpacityNum_bounds {n : Nat} (hn : n < 9007199254740992) :
    fl02s ≤ uniformOpacityNum n ∧ uniformOpacityNum n ≤ fl08s := by
  have hprod : fl (fl (fl08s - fl02s) * (n <<< 53)) ≤
      fl (fl (fl08s - fl02s) * (9007199254740991 <<< 53)) := by
    apply fl_mono
    · apply Nat.mul_le_mul_left
      rw [Nat.shiftLeft_eq, Nat.shiftLeft_eq]
      exact Nat.mul_le_mul_right _ (by omega)
    · decide
  have ht : (fl (fl (fl08s - fl02s) * (n <<< 53)) >>> 106) ≤
      (fl (fl (fl08s - fl02s) * (9007199254740991 <<< 53)) >>> 106) := by
    rw [Nat.shiftRight_eq_div_pow, Nat.shiftRight_eq_div_pow]
    exact Nat.div_le_div_right hprod
  have hmaxfin : fl02s + (fl (fl (fl08s - fl02s) * (9007199254740991 <<< 53)) >>> 106)
      < 2 ^ 1100 := by decide
  constructor
  · have h1 : fl fl02s ≤
        fl (fl02s + (fl (fl (fl08s - fl02s) * (n <<< 53)) >>> 106)) := by
      apply fl_mono (by omega)
      omega
    calc fl02s = fl fl02s := by decide
      _ ≤ _ := h1
  · have h2 : fl (fl02s + (fl (fl (fl08s - fl02s) * (n <<< 53)) >>> 106)) ≤
        fl (fl02s + (fl (fl (fl08s - fl02s) * (9007199254740991 <<< 53)) >>> 106)) := by
      apply fl_mono (by omega) (by omega)
    calc uniformOpacityNum n
        = fl (fl02s + (fl (fl (fl08s - fl02s) * (n <<< 53)) >>> 106)) := rfl
      _ ≤ fl (fl02s + (fl (fl (fl08s - fl02s) * (9007199254740991 <<< 53)) >>> 106)) := h2
      _ = fl08s := by decide

theorem opacityVal_of_bounds {n : Nat} (h1 : fl02s ≤ n) (h2 : n ≤ fl08s) :
    (1 : ℚ) / 5 ≤ (n : ℚ) / 81129638414606681695789005144064 ∧
      (n : ℚ) / 81129638414606681695789005144064 ≤ 3602879701896397 / 4503599627370496 := by
  have hfl02 : fl02s = 16225927682921337239877726502912 := by decide
  have hfl08 : fl08s = 64903710731685348959510906011648 := by decide
  have h1' : (16225927682921337239877726502912 : ℚ) ≤ (n : ℚ) := by
    have : (16225927682921337239877726502912 : Nat) ≤ n := by omega
    exact_mod_cast this
  have h2' : (n : ℚ) ≤ 64903710731685348959510906011648 := by
    have : n ≤ (64903710731685348959510906011648 : Nat) := by omega
    exact_mod_cast this
  constructor
  · rw [div_le_div_iff₀ (by norm_num) (by norm_num)]
    linarith
  · rw [div_le_div_iff₀ (by norm_num) (by norm_num)]
    linarith

theorem drawCircle_inv {w h : Int} {s : MTState} {c : Circle} {s' : MTState}
    (hd : drawCircle w h s = .ok (c, s')) : CircleInv w h c := by
  unfold drawCircle at hd
  split at hd
  · exact absurd hd (by simp)
  · rename_i p1 cx s1 h1
    split at hd
    · exact absurd hd (by simp)
    · rename_i p2 cy s2 h2
      split at hd
      · exact absurd hd (by simp)
      · rename_i cap hcap
        split at hd
        · exact absurd hd (by simp)
        · rename_i p3 r s3 h3
          split at hd
          · exact absurd hd (by simp)
          · rename_i p4 col s4 h4
            simp only [Except.ok.injEq, Prod.mk.injEq] at hd
            obtain ⟨hc, _⟩ := hd
            subst hc
            obtain ⟨hx1, hx2⟩ := pyRandint_bounds h1
            obtain ⟨hy1, hy2⟩ := pyRandint_bounds h2
            obtain ⟨hr1, hr2⟩ := pyRandint_bounds h3
            have hcol := pyChoice_mem h4
            have hn := random53_lt s4
            obtain ⟨hu1, hu2⟩ := uniformOpacityNum_bounds hn
            obtain ⟨ho1, ho2⟩ := opacityVal_of_bounds hu1 hu2
            refine ⟨hx1, hx2, hy1, hy2, hr1, ?_, hcol, ho1, ho2⟩
            intro cap' hcap'
            rw [hcap] at hcap'
            have hcc : cap = cap' := Except.ok.inj hcap'
            exact hcc ▸ hr2

theorem circlesLoop_inv {w h : Int} :
    ∀ {n : Nat} {s : MTState} {cs : List Circle} {s' : MTState},
      circlesLoop w h s n = .ok (cs, s') →
        cs.length = n ∧ ∀ c ∈ cs, CircleInv w h c := by
  intro n
  induction n with
  | zero =>
    intro s cs s' hl
    rw [circlesLoop] at hl
    simp only [Except.ok.injEq, Prod.mk.injEq] at hl
    obtain ⟨hcs, _⟩ := hl
    subst hcs
    exact ⟨rfl, by simp⟩
  | succ k ih =>
    intro s cs s' hl
    rw [circlesLoop] at hl
    split at hl
    · exact absurd hl (by simp)
    · rename_i p c s1 hd
      split at hl
      · exact absurd hl (by simp)
      · rename_i p2 cs0 s2 hrec
        simp only [Except.ok.injEq, Prod.mk.injEq] at hl
        obtain ⟨hcs, _⟩ := hl
        subst hcs
        obtain ⟨hlen, hall⟩ := ih hrec
        refine ⟨by simp [hlen], ?_⟩
        intro c' hc'
        rcases List.mem_cons.mp hc' with hh | ht
        · exact hh ▸ drawCircle_inv hd
        · exact hall c' ht

theorem composeScene_circles {p : String} {s : MTState} {w h : Int} {sc : Scene}
    (hc : composeScene p s w h = .ok sc) :
    ∃ s1 s2, circlesLoop w h s1 18 = .ok (sc.circles, s2) := by
  simp only [composeScene] at hc
  split at hc
  · exact absurd hc (by simp)
  · rename_i pr bg s1 hbg
    split at hc
    · exact absurd hc (by simp)
    · rename_i p2 cs s2 hcl
      refine ⟨s1, s2, ?_⟩
      simp only [Except.ok.injEq] at hc
      rw [← hc]
      exact hcl

/-! ### Claim theorems -/

/-- C1, counterexample: the claim says a present explicit seed is reduced
modulo `2^32` before driving the pseudo-random stream; line 88 passes it
to `random.Random` unreduced, so the explicit seed `2^32` resolves to
`2^32` itself (not `2^32 mod 2^32 = 0`), and the stream state it seeds
differs from the one seed `0` produces. -/
theorem c1_counterexample :
    resolvedSeed (fun _ => 0) "ab" (some 4294967296) ≠ (4294967296 : Int) % 4294967296 ∧
      mtInit 4294967296 ≠ mtInit ((4294967296 : Int) % 4294967296) := by
  constructor
  · decide
  · decide

/-- C1, amended: a present nonzero explicit seed is used as the stream
seed unchanged, with no reduction modulo `2^32` (a zero explicit seed is
falsy and falls back to the prompt-hash path, see C10). -/
theorem c1_amended (pyHash : String → Int) (p : String) (v : Int) (hv : v ≠ 0) :
    resolvedSeed pyHash p (some v) = v := by
  simp [resolvedSeed, hv]

/-- C1, witness for the amended claim at explicit seed 7. -/
theorem c1_witness : (7 : Int) ≠ 0 ∧ resolvedSeed (fun _ => 0) "ab" (some 7) = 7 :=
  ⟨by decide, c1_amended (fun _ => 0) "ab" 7 (by decide)⟩

/-- C2: without an explicit seed the resolved seed is derived from the
process's builtin string hash (line 88), which is salted per process
(`PYTHONHASHSEED`); two processes whose hash functions differ on the
prompt resolve different seeds, so the prompt-to-seed map — and hence the
image — is not a fixed stable function across process restarts.  The spec
itself flags the builtin-hash reliance as the defect (§4.1, §9). -/
theorem c2_process_dependent_hash :
    resolvedSeed (fun _ => 0) "ab" none ≠ resolvedSeed (fun _ => 1) "ab" none := by
  decide

/-- C3, counterexample: with prompt `"ab"`, a process hash satisfying
`hash("ab") = 2^32 - 1`, and `S = 2^32 - 1`, the claim's premise
`hash(prompt) mod 2^32 == S` holds, yet the explicit-seed image differs
from the no-seed image: the no-seed path of line 88 reduces the hash
modulo `2^32 - 1` (not `2^32`), seeding the stream with `0` instead of
`2^32 - 1`.  The images are compared through the injective `exceptKey`. -/
theorem c3_counterexample :
    ((4294967295 : Int) % 4294967296 = 4294967295) ∧
      svgFromPrompt (fun _ => 4294967295) "ab" (some 4294967295) 100 100 ≠
        svgFromPrompt (fun _ => 4294967295) "ab" none 100 100 :=
  ⟨by decide, fun hEq => absurd (congrArg exceptKey hEq) (by decide)⟩

/-- C3, amended: providing `seed = S` explicitly yields the same image as
providing no seed whenever `hash(prompt) mod (2^32 - 1) == S` — the
modulus the code actually uses (for `S = 0` both sides take the hash
path, so the equivalence holds there too). -/
theorem c3_amended (pyHash : String → Int) (p : String) (S w h : Int)
    (hS : pyHash p % 4294967295 = S) :
    svgFromPrompt pyHash p (some S) w h = svgFromPrompt pyHash p none w h := by
  have hres : resolvedSeed pyHash p (some S) = resolvedSeed pyHash p none := by
    by_cases h0 : S = 0
    · subst h0
      simp [resolvedSeed]
    · simp only [resolvedSeed, if_neg h0]
      exact hS.symm
  unfold svgFromPrompt
  rw [hres]

/-- C3, witness for the amended claim: a hash value below `2^32 - 1` is
its own residue, and the two images coincide. -/
theorem c3_witness :
    ((5 : Int) % 4294967295 = 5) ∧
      svgFromPrompt (fun _ => 5) "ab" (some 5) 100 100 =
        svgFromPrompt (fun _ => 5) "ab" none 100 100 :=
  ⟨by decide, c3_amended (fun _ => 5) "ab" 5 100 100 (by decide)⟩

/-- C4: the claim (with spec §4.4, hardened beyond source) requires
`width = 0` to fail validation as `InvalidRequest` (HTTP 400); the code
validates only the prompt (lines 118-119), so `width = 0` passes
validation and instead crashes inside `svg_from_prompt` — `randint(20,
int(0 * 0.25))` is an empty range and raises `ValueError` (line 98) —
surfacing as an uncaught server error, not a 400 client error. -/
theorem c4_width_zero_uncaught :
    generateImage (fun _ => 0) (fun _ => .ok "id-1")
        { prompt := "hi", seed := some 1, width := 0, height := 1024 } =
      .error (.uncaught .valueError) := by
  decide

/-- C5, counterexample: the claimed strict bound `opacity < 0.8` fails on
the program's float arithmetic.  At the boundary draw
`random() = (2^53 - 1)/2^53` — realized by an explicit generator state
whose two relevant words temper to `0xFFFFFFFF` (`316513203` untempers to
all-ones) — CPython's `uniform(0.2, 0.8)` returns exactly the binary64
value of `0.8`, i.e. `3602879701896397/2^52 > 4/5`, so the composed scene
contains a circle whose opacity is not `< 0.8`. -/
theorem c5_counterexample :
    ∃ sc c,
      composeScene "abc"
          ⟨462584564529052315401262773642241098992907727690788765696, 0⟩ 100 100 =
        .ok sc ∧ c ∈ sc.circles ∧ ¬ opacityVal c < 4 / 5 := by
  have hn : headOpacityNum (composeScene "abc"
      ⟨462584564529052315401262773642241098992907727690788765696, 0⟩ 100 100) =
      some 64903710731685348959510906011648 := by decide
  rcases hE : composeScene "abc"
      ⟨462584564529052315401262773642241098992907727690788765696, 0⟩ 100 100 with e | sc
  · rw [hE] at hn
    exact absurd hn (by simp [headOpacityNum])
  · rw [hE] at hn
    simp only [headOpacityNum] at hn
    cases hcs : sc.circles with
    | nil =>
      rw [hcs] at hn
      simp at hn
    | cons c0 rest =>
      rw [hcs] at hn
      simp only [List.map_cons, List.head?_cons, Option.some.injEq] at hn
      refine ⟨sc, c0, rfl, by rw [hcs]; exact List.mem_cons_self c0 rest, ?_⟩
      rw [opacityVal, hn]
      norm_num

/-- C5, amended: every circle of a successfully composed scene satisfies
`0 ≤ cx ≤ width`, `0 ≤ cy ≤ height`, `20 ≤ r ≤` the code's radius cap
`int(min(width, height) * 0.25)` (the mathematical floor for dimensions
below `2^53`), a fill color from the 6-entry palette, and
`0.2 ≤ opacity ≤ 0.8000000000000000444…` — the binary64 value of the
literal `0.8`, which the float computation attains at the boundary draw
(the only change the counterexample forces to the original bounds). -/
theorem c5_amended (p : String) (st : MTState) (w h : Int) (sc : Scene)
    (_hw : 0 < w) (_hh : 0 < h) (hc : composeScene p st w h = .ok sc) :
    ∀ c ∈ sc.circles, CircleInv w h c := by
  obtain ⟨s1, s2, hl⟩ := composeScene_circles hc
  exact (circlesLoop_inv hl).2

/-- C5, witness: a concrete successful composition whose circles all
satisfy the amended bounds invariant. -/
theorem c5_witness :
    ∃ sc, composeScene "ab" (mtInit 7) 100 100 = Except.ok sc ∧
      ∀ c ∈ sc.circles, CircleInv 100 100 c := by
  rcases hE : composeScene "ab" (mtInit 7) 100 100 with e | sc
  · have hOk : isOkE (composeScene "ab" (mtInit 7) 100 100) = true := by decide
    rw [hE] at hOk
    exact absurd hOk (by simp [isOkE])
  · exact ⟨sc, rfl, c5_amended "ab" (mtInit 7) 100 100 sc (by decide) (by decide) hE⟩

/-- C6, counterexample: the claim quantifies over every valid request,
but a valid request (nonempty prompt, positive dimensions) with
`width = height = 50` crashes in synthesis — `randint(20, int(50 * 0.25)
= 12)` is an empty range and raises `ValueError` — so no record with an
image is returned even though only the storage collaborator was supposed
to be failing; the crash is independent of storage (it is the C4 latent
defect), so the claim needed a correction restricting it to requests
whose synthesis succeeds. -/
theorem c6_counterexample :
    generateImage (fun _ => 0) (fun _ => .error StoreErr.unavailable)
        { prompt := "hi", style := none, seed := some 1, width := 50, height := 50 } =
      .error (.uncaught .valueError) := by
  decide

/-- C6, amended: for every valid request whose synthesis succeeds, even
when every insert into the storage collaborator fails, `generate_image`
still returns a response whose identity is the sentinel `"no-db"` and
whose `image_data_url` is the non-empty data URI produced by synthesis
(`"data:image/svg+xml;base64," ++ payload`). -/
theorem c6_storage_independence (pyHash : String → Int)
    (store : GenRecord → Except StoreErr String) (req : GenerateRequest)
    (hfail : ∀ d, ∃ e, store d = .error e)
    (hval : ¬(req.prompt = "" ∨ (pyStrip req.prompt).length = 0))
    (hok : isOkE (svgFromPrompt pyHash (pyStrip req.prompt) req.seed req.width req.height)
      = true) :
    ∃ resp, generateImage pyHash store req = .ok resp ∧ resp.id = "no-db" ∧
      (∃ b, resp.image_data_url = dataUriHead ++ b) ∧ resp.image_data_url ≠ "" := by
  cases hE : svgFromPrompt pyHash (pyStrip req.prompt) req.seed req.width req.height with
  | error e =>
    rw [hE] at hok
    exact absurd hok (by simp [isOkE])
  | ok u =>
    obtain ⟨e, he⟩ := hfail ⟨pyStrip req.prompt, req.style, req.seed, req.width, req.height, u⟩
    have hgen : generateImage pyHash store req =
        .ok ⟨"no-db", pyStrip req.prompt, req.style, req.seed, req.width, req.height, u⟩ := by
      unfold generateImage
      rw [if_neg hval, hE]
      dsimp only
      rw [he]
    have hu : ∃ b, u = dataUriHead ++ b := by
      unfold svgFromPrompt at hE
      split at hE
      · exact absurd hE (by simp)
      · simp only [Except.ok.injEq] at hE
        exact ⟨_, hE.symm⟩
    obtain ⟨b, hb⟩ := hu
    have hne : u ≠ "" := by
      rw [hb]
      intro hcontra
      have hlen := congrArg String.length hcontra
      have h26 : dataUriHead.length = 26 := by decide
      have h0 : ("" : String).length = 0 := rfl
      rw [String.length_append, h26, h0] at hlen
      omega
    exact ⟨_, hgen, rfl, ⟨b, hb⟩, hne⟩

/-- C6, witness: a concrete valid request against an always-failing store. -/
theorem c6_witness :
    ∃ resp, generateImage (fun _ => 0) (fun _ => .error StoreErr.unavailable)
        { prompt := " ab ", style := none, seed := some 1, width := 100, height := 100 } =
        .ok resp ∧ resp.id = "no-db" ∧
        (∃ b, resp.image_data_url = dataUriHead ++ b) ∧ resp.image_data_url ≠ "" :=
  c6_storage_independence (fun _ => 0) (fun _ => .error StoreErr.unavailable)
    { prompt := " ab ", style := none, seed := some 1, width := 100, height := 100 }
    (fun d => ⟨StoreErr.unavailable, rfl⟩) (by decide) (by decide)

/-- C7: for a nonempty prompt, if the trimmed prompt's length is odd the
background is the fixed fallback `"#0b1220"` and the circle loop starts
from the same stream state the composer received (no draw consumed); if
the length is even the background is one `choice` draw from the fixed
4-entry dark palette and the circle loop continues from the post-draw
state. -/
theorem c7_background_parity (p : String) (s : MTState) (w h : Int) (hp : p ≠ "") :
    (p.length % 2 = 1 →
      ∀ sc, composeScene p s w h = .ok sc →
        sc.bg = "#0b1220" ∧ ∃ s2, circlesLoop w h s 18 = .ok (sc.circles, s2)) ∧
    (p.length % 2 = 0 →
      ∀ sc, composeScene p s w h = .ok sc →
        sc.bg ∈ darkPalette ∧ ∃ s1 s2, pyChoice darkPalette s = .ok (sc.bg, s1) ∧
          circlesLoop w h s1 18 = .ok (sc.circles, s2)) := by
  constructor
  · intro hodd sc hsc
    have hcond : ¬(p ≠ "" ∧ p.length % 2 = 0) := by
      intro hcd
      omega
    simp only [composeScene, if_neg hcond] at hsc
    split at hsc
    · exact absurd hsc (by simp)
    · rename_i pr cs s2 hcl
      simp only [Except.ok.injEq] at hsc
      subst hsc
      exact ⟨rfl, ⟨s2, hcl⟩⟩
  · intro heven sc hsc
    simp only [composeScene, if_pos (And.intro hp heven)] at hsc
    split at hsc
    · exact absurd hsc (by simp)
    · rename_i pr bg s1 hbg
      split at hsc
      · exact absurd hsc (by simp)
      · rename_i pr2 cs s2 hcl
        simp only [Except.ok.injEq] at hsc
        subst hsc
        exact ⟨pyChoice_mem hbg, s1, s2, hbg, hcl⟩

/-- C7, witness: the theorem instantiated at the even-length prompt
`"ab"` and a concrete stream state. -/
theorem c7_witness :
    ("ab".length % 2 = 1 →
      ∀ sc, composeScene "ab" (mtInit 3) 100 100 = .ok sc →
        sc.bg = "#0b1220" ∧ ∃ s2, circlesLoop 100 100 (mtInit 3) 18 = .ok (sc.circles, s2)) ∧
    ("ab".length % 2 = 0 →
      ∀ sc, composeScene "ab" (mtInit 3) 100 100 = .ok sc →
        sc.bg ∈ darkPalette ∧
          ∃ s1 s2, pyChoice darkPalette (mtInit 3) = .ok (sc.bg, s1) ∧
            circlesLoop 100 100 s1 18 = .ok (sc.circles, s2)) :=
  c7_background_parity "ab" (mtInit 3) 100 100 (by decide)

/-- C8: when the storage query fails, `list_generations` returns the
empty item list instead of propagating the error (lines 172-174). -/
theorem c8_read_fallback (store : Int → Except StoreErr (List StoredDoc)) (limit : Int)
    (e : StoreErr) (hf : store limit = .error e) : listGenerations store limit = [] := by
  unfold listGenerations
  rw [hf]

/-- C8, witness: a concrete unreachable store at the default limit 12. -/
theorem c8_witness : listGenerations (fun _ => .error StoreErr.unavailable) 12 = [] :=
  c8_read_fallback (fun _ => .error StoreErr.unavailable) 12 StoreErr.unavailable rfl

/-- C9: every successfully composed scene contains exactly 18 circle
descriptors, produced by the fixed `range(18)` loop. -/
theorem c9_eighteen_circles (p : String) (st : MTState) (w h : Int) (sc : Scene)
    (hc : composeScene p st w h = .ok sc) : sc.circles.length = 18 := by
  obtain ⟨s1, s2, hl⟩ := composeScene_circles hc
  exact (circlesLoop_inv hl).1

/-- C9, witness: a concrete successful composition with 18 circles. -/
theorem c9_witness :
    ∃ sc, composeScene "ab" (mtInit 42) 100 100 = Except.ok sc ∧ sc.circles.length = 18 := by
  rcases hE : composeScene "ab" (mtInit 42) 100 100 with e | sc
  · have hOk : isOkE (composeScene "ab" (mtInit 42) 100 100) = true := by decide
    rw [hE] at hOk
    exact absurd hOk (by simp [isOkE])
  · exact ⟨sc, rfl, c9_eighteen_circles "ab" (mtInit 42) 100 100 sc hE⟩

/-- C10: a request seed of 0 is falsy in the `seed or hash(prompt) %
(2**32 - 1)` expression of line 88, so it is treated exactly like an
absent seed: the resolved seed falls back to the prompt hash and the
generated image is identical to the no-seed image. -/
theorem c10_zero_seed_fallback (pyHash : String → Int) (p : String) (w h : Int) :
    resolvedSeed pyHash p (some 0) = resolvedSeed pyHash p none ∧
      svgFromPrompt pyHash p (some 0) w h = svgFromPrompt pyHash p none w h := by
  have hres : resolvedSeed pyHash p (some 0) = resolvedSeed pyHash p none := by
    simp [resolvedSeed]
  refine ⟨hres, ?_⟩
  unfold svgFromPrompt
  rw [hres]

end ImageGen
